import Mathlib

/-
Verification of the lrmap repository (a Go implementation of the left-right
concurrency technique over a map) against its specification.

Shallow embedding notes:
- A Go map is modelled as an association list of key/value pairs
  (Arena K V := List (K × V)); map insert, delete and lookup become the
  recursive functions Arena.set, Arena.del, Arena.lookup, mirroring the Go
  map semantics (insert-or-overwrite, delete-if-present, lookup with
  found flag and zero value for absent keys).
- The LRMap struct (src/lrmap.go) is modelled by LRState: the two arenas
  left and right, the atomic readMap / writeMap pointers (modelled as
  Option Side, nil before the initial swap in New), the redo log, and the
  reader-handler registry (a list of (id, handler) pairs; Go keys the
  registry by pointer identity, modelled here by a Nat id).
- readHandlerInner (live snapshot + epoch counter) is modelled by Handler.
  The uint64 epoch is a Nat kept below 2 ^ 64 by taking increments mod
  2 ^ 64, matching unsigned overflow.
- Go panics on protocol violations are modelled by Option-returning
  operations: none is a panic, some is normal completion.
- waitForReaders is a polling loop over the registered epochs; it is
  modelled with an observation function obs (obs round id = the epoch of
  handler id as read at polling round round) and explicit fuel; returning
  none means the fuel ran out (the Go loop would still be polling).
-/

namespace LRMapModel

/-- Arena is the Go type arena map[K]V, modelled as an association list. -/
abbrev Arena (K V : Type) := List (K × V)

/-- Lookup of a key in an arena: the Go expression v, ok := m[k] without
the ok flag (none when absent). -/
def Arena.lookup {K V : Type} [DecidableEq K] (a : Arena K V) (k : K) : Option V :=
  match a with
  | [] => none
  | (k2, v) :: rest => if k = k2 then some v else Arena.lookup rest k

/-- Go map read v, ok := m[k]: the value (zero value of V when absent)
together with the found flag. -/
def Arena.getOK {K V : Type} [DecidableEq K] [Inhabited V] (a : Arena K V) (k : K) :
    V × Bool :=
  match Arena.lookup a k with
  | some v => (v, true)
  | none => (default, false)

/-- Go map insert m[k] = v: overwrite the existing entry for k, or append a
new entry when k is absent. -/
def Arena.set {K V : Type} [DecidableEq K] (a : Arena K V) (k : K) (v : V) : Arena K V :=
  match a with
  | [] => [(k, v)]
  | (k2, v2) :: rest =>
      if k2 = k then (k, v) :: rest else (k2, v2) :: Arena.set rest k v

/-- Go builtin delete(m, k): remove the entry for k if present, no-op
otherwise. -/
def Arena.del {K V : Type} [DecidableEq K] (a : Arena K V) (k : K) : Arena K V :=
  match a with
  | [] => []
  | (k2, v2) :: rest =>
      if k2 = k then Arena.del rest k else (k2, v2) :: Arena.del rest k

/-- Operation is the Go operation struct of the redo log: opSet carries the
key and the value (Go stores a pointer to the value, always non-nil for
opSet records), opDelete carries only the key. -/
inductive Operation (K V : Type) where
  | set (key : K) (value : V)
  | del (key : K)
  deriving DecidableEq

/-- One iteration of the replay loop in Commit (src/lrmap.go lines 84-94):
apply a single logged operation to an arena. -/
def applyOp {K V : Type} [DecidableEq K] (a : Arena K V) : Operation K V → Arena K V
  | .set k v => Arena.set a k v
  | .del k => Arena.del a k

/-- The whole replay loop of Commit: apply every logged operation in
recorded order. -/
def applyLog {K V : Type} [DecidableEq K] (a : Arena K V) (ops : List (Operation K V)) :
    Arena K V :=
  ops.foldl applyOp a

/-- Which of the two arenas a pointer refers to (the Go code compares the
readMap pointer against the addresses of m.left and m.right). -/
inductive Side where
  | left
  | right
  deriving DecidableEq

/-- Model of readHandlerInner: the cached live snapshot and the epoch
counter (uint64, kept below 2 ^ 64). -/
structure Handler (K V : Type) where
  live : Arena K V
  epoch : Nat
  deriving DecidableEq

/-- Model of the LRMap struct: the two arenas, the readMap / writeMap
pointers (none only before the initial swap performed by New), the redo
log and the reader-handler registry. -/
structure LRState (K V : Type) where
  left : Arena K V
  right : Arena K V
  readMap : Option Side
  writeMap : Option Side
  redoLog : List (Operation K V)
  readHandlers : List (Nat × Handler K V)
  deriving DecidableEq

/-- The arena the readMap pointer refers to.  Dereferencing a nil readMap
would panic in Go; that case (unreachable after New) is mapped to the
empty arena. -/
def readArena {K V : Type} (m : LRState K V) : Arena K V :=
  match m.readMap with
  | some .left => m.left
  | some .right => m.right
  | none => []

/-- The arena the writeMap pointer refers to (nil case as in readArena). -/
def writeArena {K V : Type} (m : LRState K V) : Arena K V :=
  match m.writeMap with
  | some .left => m.left
  | some .right => m.right
  | none => []

/-- Update the arena the writeMap pointer refers to, the effect of writing
through m.writeMap.Load() in Go.  A nil writeMap would panic in Go; that
case (unreachable after New) is mapped to the identity. -/
def updateWrite {K V : Type} (m : LRState K V) (f : Arena K V → Arena K V) :
    LRState K V :=
  match m.writeMap with
  | some .left => { m with left := f m.left }
  | some .right => { m with right := f m.right }
  | none => m

/-- The swap method (src/lrmap.go lines 136-148): nil or left readMap sends
readers to right and writers to left; right readMap sends readers to left
and writers to right.  The default branch of the Go switch (illegal
pointer) is unrepresentable in this model. -/
def LRState.swap {K V : Type} (m : LRState K V) : LRState K V :=
  match m.readMap with
  | none => { m with readMap := some .right, writeMap := some .left }
  | some .left => { m with readMap := some .right, writeMap := some .left }
  | some .right => { m with readMap := some .left, writeMap := some .right }

/-- The New constructor: both arenas empty, empty registry and log, then
one swap. -/
def LRState.new {K V : Type} : LRState K V :=
  LRState.swap
    { left := [], right := [], readMap := none, writeMap := none,
      redoLog := [], readHandlers := [] }

/-- The Set method: write through the writeMap pointer and append a set
record to the redo log. -/
def LRState.Set {K V : Type} [DecidableEq K] (m : LRState K V) (k : K) (v : V) :
    LRState K V :=
  let m2 := updateWrite m (fun a => Arena.set a k v)
  { m2 with redoLog := m2.redoLog ++ [Operation.set k v] }

/-- The Delete method: delete through the writeMap pointer and append a
delete record to the redo log (Go delete is a no-op on an absent key and
reports no error). -/
def LRState.Delete {K V : Type} [DecidableEq K] (m : LRState K V) (k : K) :
    LRState K V :=
  let m2 := updateWrite m (fun a => Arena.del a k)
  { m2 with redoLog := m2.redoLog ++ [Operation.del k] }

/-- The Coordinator GetOK method: read from the write-side arena, returning
the value (zero value when absent) and the found flag. -/
def LRState.GetOK {K V : Type} [DecidableEq K] [Inhabited V] (m : LRState K V) (k : K) :
    V × Bool :=
  Arena.getOK (writeArena m) k

/-- The Coordinator Get method: GetOK with the found flag discarded. -/
def LRState.Get {K V : Type} [DecidableEq K] [Inhabited V] (m : LRState K V) (k : K) : V :=
  (m.GetOK k).1

/-- The Commit method without the quiescence wait (the sequential core:
between the swap and the replay, waitForReaders runs; its effect on the
state is nil, it only blocks): swap, replay the redo log through the new
writeMap pointer, clear the log. -/
def LRState.Commit {K V : Type} [DecidableEq K] (m : LRState K V) : LRState K V :=
  let m1 := m.swap
  let m2 := updateWrite m1 (fun a => applyLog a m1.redoLog)
  { m2 with redoLog := [] }

/-- The newReadHandler registration: a fresh inner handler (nil live map,
epoch 0) is added to the registry under a fresh id. -/
def LRState.newReadHandler {K V : Type} (m : LRState K V) (id : Nat) : LRState K V :=
  { m with readHandlers := m.readHandlers ++ [(id, { live := [], epoch := 0 })] }

/-- readHandlerInner.close (src/lrmap.go lines 300-305): remove the handler
from the registry.  No check of the section state is made. -/
def LRState.closeHandler {K V : Type} (m : LRState K V) (id : Nat) : LRState K V :=
  { m with readHandlers := m.readHandlers.filter (fun p => p.1 != id) }

/-- Modulus of the uint64 epoch counter. -/
def U64 : Nat := 2 ^ 64

/-- readHandlerInner.entered: the epoch is odd exactly while inside a read
section. -/
def entered {K V : Type} (h : Handler K V) : Bool :=
  h.epoch % 2 == 1

/-- readHandlerInner.enter: panic (none) when already entered, otherwise
increment the epoch (uint64 wrap) and snapshot the arena the readMap
pointer currently refers to. -/
def Handler.enter {K V : Type} (h : Handler K V) (m : LRState K V) :
    Option (Handler K V) :=
  if entered h then none
  else some { live := readArena m, epoch := (h.epoch + 1) % U64 }

/-- readHandlerInner.leave: panic (none) when not entered, otherwise
increment the epoch (uint64 wrap). -/
def Handler.leave {K V : Type} (h : Handler K V) : Option (Handler K V) :=
  if entered h then some { h with epoch := (h.epoch + 1) % U64 }
  else none

/-- readHandlerInner.getOK: panic (none) when not entered, otherwise read
from the live snapshot. -/
def Handler.getOK {K V : Type} [DecidableEq K] [Inhabited V] (h : Handler K V) (k : K) :
    Option (V × Bool) :=
  if entered h then some (Arena.getOK h.live k) else none

/-- readHandlerInner.get: getOK with the found flag discarded (a panic in
getOK propagates). -/
def Handler.get {K V : Type} [DecidableEq K] [Inhabited V] (h : Handler K V) (k : K) :
    Option V :=
  (h.getOK k).map Prod.fst

/-- readHandlerInner.len: panic (none) when not entered, otherwise the size
of the live snapshot. -/
def Handler.len {K V : Type} (h : Handler K V) : Option Nat :=
  if entered h then some h.live.length else none

/-- The loop body of ReadHandler.Iterate: visit entries in order, stopping
right after the first entry on which the visitor returns false. -/
def iterLoop {K V : Type} (fn : K → V → Bool) : List (K × V) → List (K × V)
  | [] => []
  | (k, v) :: rest =>
      if fn k v then (k, v) :: iterLoop fn rest else [(k, v)]

/-- ReadHandler.Iterate: panic (none) when not entered, otherwise traverse
the live snapshot honoring early termination; the result lists the visited
entries. -/
def Handler.iterate {K V : Type} (h : Handler K V) (fn : K → V → Bool) :
    Option (List (K × V)) :=
  if entered h then some (iterLoop fn h.live) else none

/-- ReadHandler.Recycle precondition checks: panic (none) when the outer
handle is not ready or when the inner handler is still entered, otherwise
return the handle to the pool. -/
def Handler.recycle {K V : Type} (h : Handler K V) (ready : Bool) : Option Unit :=
  if ready = false then none
  else if entered h then none
  else some ()

/-- Issue one operation through the Coordinator write interface. -/
def issue {K V : Type} [DecidableEq K] (m : LRState K V) : Operation K V → LRState K V
  | .set k v => m.Set k v
  | .del k => m.Delete k

/-- Issue a sequence of operations through the Coordinator write
interface, in order. -/
def applyOps {K V : Type} [DecidableEq K] (m : LRState K V) (ops : List (Operation K V)) :
    LRState K V :=
  ops.foldl issue m

/-- Pointer invariant: readMap and writeMap each refer to one of the two
arenas and never to the same one. -/
abbrev Inv {K V : Type} (m : LRState K V) : Prop :=
  (m.readMap = some Side.left ∧ m.writeMap = some Side.right) ∨
  (m.readMap = some Side.right ∧ m.writeMap = some Side.left)

/-- Synchronization invariant: replaying the pending log onto the read-side
arena yields the write-side arena (the write side is the read side plus the
unflushed operations). -/
abbrev SInv {K V : Type} [DecidableEq K] (m : LRState K V) : Prop :=
  applyLog (readArena m) m.redoLog = writeArena m

/-- One step of the net effect of an operation sequence on a single key:
a later set of the key overrides, a later delete of the key clears, an
operation on another key leaves the accumulator alone (last-writer-wins). -/
def netStep {K V : Type} [DecidableEq K] (k : K) (acc : Option V) :
    Operation K V → Option V
  | .set k2 v => if k = k2 then some v else acc
  | .del k2 => if k = k2 then none else acc

/-- Net effect on key k of an operation sequence applied in issue order,
starting from the value (or absence) the key had before the sequence. -/
def netLookup {K V : Type} [DecidableEq K] (ops : List (Operation K V)) (init : Option V)
    (k : K) : Option V :=
  ops.foldl (netStep k) init

/-- Epochs of all registered handlers, keyed by handler id (the registry
iteration at the top of waitForReaders). -/
def snapEpochs {K V : Type} (m : LRState K V) : List (Nat × Nat) :=
  m.readHandlers.map (fun p => (p.1, p.2.epoch))

/-- The snapshot loop of waitForReaders (src/lrmap.go lines 151-157): keep
exactly the handlers whose epoch is odd at swap time, with the observed
epoch value. -/
def collectReaders (hs : List (Nat × Nat)) : List (Nat × Nat) :=
  hs.filter (fun p => p.2 % 2 == 1)

/-- The polling loop of waitForReaders: at each round, drop every pending
reader whose re-read epoch (obs round id) differs from its snapshot value;
return the round number once no pending reader remains.  fuel bounds the
number of polling rounds modelled (none = still polling; the Go loop has
no timeout).  The exponential backoff sleep only spaces the rounds in time
and has no effect on the state. -/
def waitLoop (obs : Nat → Nat → Nat) : Nat → Nat → List (Nat × Nat) → Option Nat
  | 0, _, _ => none
  | fuel + 1, round, readers =>
      let readers2 := readers.filter (fun p => obs round p.1 == p.2)
      if readers2.isEmpty then some round
      else waitLoop obs fuel (round + 1) readers2

/-- waitForReaders (src/lrmap.go lines 150-181): snapshot the odd-epoch
handlers, then poll until all of them have been observed to change. -/
def waitForReaders (obs : Nat → Nat → Nat) (fuel : Nat) (hs : List (Nat × Nat)) :
    Option Nat :=
  waitLoop obs fuel 0 (collectReaders hs)

/-- Commit with the quiescence wait made explicit: swap, then wait on the
epochs of the handlers registered at swap time; only if the wait returns
is the redo log replayed through the new writeMap pointer and cleared. -/
def CommitWithWait {K V : Type} [DecidableEq K] (m : LRState K V)
    (obs : Nat → Nat → Nat) (fuel : Nat) : Option (LRState K V) :=
  let m1 := m.swap
  match waitForReaders obs fuel (snapEpochs m1) with
  | none => none
  | some _ =>
      let m2 := updateWrite m1 (fun a => applyLog a m1.redoLog)
      some { m2 with redoLog := [] }

/-- Concrete epoch observations for exercising the quiescence wait: every
handler's epoch reads as round + 1 (monotonically increasing). -/
def exObs : Nat → Nat → Nat := fun r _ => r + 1

/-- Concrete coordinator state with two registered handlers: handler 0 is
inside a section (epoch 1), handler 1 is outside (epoch 4). -/
def exState : LRState Nat Nat :=
  { LRState.new with
    readHandlers := [(0, { live := [], epoch := 1 }), (1, { live := [], epoch := 4 })] }

/-- The state CommitWithWait produces from exState once the wait returns. -/
def exCommitResult : LRState Nat Nat :=
  { updateWrite exState.swap (fun a => applyLog a exState.swap.redoLog) with redoLog := [] }

/- Helper lemmas about arenas. -/

theorem lookup_set {K V : Type} [DecidableEq K] (a : Arena K V) (k k2 : K) (v : V) :
    Arena.lookup (Arena.set a k v) k2 = if k2 = k then some v else Arena.lookup a k2 := by
  induction a with
  | nil => simp [Arena.set, Arena.lookup]
  | cons p rest ih =>
    obtain ⟨k3, v3⟩ := p
    by_cases h3 : k3 = k
    · subst h3
      by_cases h2 : k2 = k3 <;> simp [Arena.set, Arena.lookup, h2]
    · by_cases h2 : k2 = k3
      · subst h2
        simp [Arena.set, Arena.lookup, h3, Ne.symm h3]
      · simp [Arena.set, Arena.lookup, h3, h2, ih]

theorem lookup_del {K V : Type} [DecidableEq K] (a : Arena K V) (k k2 : K) :
    Arena.lookup (Arena.del a k) k2 = if k2 = k then none else Arena.lookup a k2 := by
  induction a with
  | nil => simp [Arena.del, Arena.lookup]
  | cons p rest ih =>
    obtain ⟨k3, v3⟩ := p
    by_cases h3 : k3 = k
    · subst h3
      by_cases h2 : k2 = k3
      · subst h2
        simp [Arena.del, ih]
      · simp [Arena.del, Arena.lookup, h2, ih]
    · by_cases h2 : k2 = k3
      · subst h2
        simp [Arena.del, Arena.lookup, h3, Ne.symm h3]
      · simp [Arena.del, Arena.lookup, h3, h2, ih]

theorem del_of_lookup_none {K V : Type} [DecidableEq K] (a : Arena K V) (k : K)
    (h : Arena.lookup a k = none) : Arena.del a k = a := by
  induction a with
  | nil => simp [Arena.del]
  | cons p rest ih =>
    obtain ⟨k3, v3⟩ := p
    by_cases h3 : k = k3
    · subst h3
      simp [Arena.lookup] at h
    · simp [Arena.lookup, h3] at h
      have h4 : ¬k3 = k := fun hh => h3 hh.symm
      simp [Arena.del, h4, ih h]

theorem applyLog_append {K V : Type} [DecidableEq K] (a : Arena K V)
    (l1 l2 : List (Operation K V)) :
    applyLog a (l1 ++ l2) = applyLog (applyLog a l1) l2 := by
  simp [applyLog, List.foldl_append]

theorem applyOp_lookup {K V : Type} [DecidableEq K] (a : Arena K V) (op : Operation K V)
    (k : K) :
    Arena.lookup (applyOp a op) k = netStep k (Arena.lookup a k) op := by
  cases op with
  | set k2 v => simp [applyOp, netStep, lookup_set]
  | del k2 => simp [applyOp, netStep, lookup_del]

theorem lookup_applyLog {K V : Type} [DecidableEq K] (ops : List (Operation K V))
    (a : Arena K V) (k : K) :
    Arena.lookup (applyLog a ops) k = netLookup ops (Arena.lookup a k) k := by
  induction ops generalizing a with
  | nil => rfl
  | cons op ops ih =>
    show Arena.lookup (applyLog (applyOp a op) ops) k
        = netLookup ops (netStep k (Arena.lookup a k) op) k
    rw [ih, applyOp_lookup]

/- Helper lemmas about the Coordinator state transitions. -/

theorem swap_inv {K V : Type} (m : LRState K V) : Inv m.swap := by
  unfold LRState.swap
  split <;> simp [Inv]

theorem swap_flip {K V : Type} (m : LRState K V) (h : Inv m) :
    m.swap.readMap = m.writeMap ∧ m.swap.writeMap = m.readMap := by
  rcases h with ⟨h1, h2⟩ | ⟨h1, h2⟩ <;> simp [LRState.swap, h1, h2]

theorem swap_fields {K V : Type} (m : LRState K V) :
    m.swap.left = m.left ∧ m.swap.right = m.right ∧ m.swap.redoLog = m.redoLog ∧
      m.swap.readHandlers = m.readHandlers := by
  unfold LRState.swap
  split <;> simp

theorem readArena_swap {K V : Type} (m : LRState K V) (h : Inv m) :
    readArena m.swap = writeArena m := by
  rcases h with ⟨h1, h2⟩ | ⟨h1, h2⟩ <;> simp [LRState.swap, readArena, writeArena, h1, h2]

theorem writeArena_swap {K V : Type} (m : LRState K V) (h : Inv m) :
    writeArena m.swap = readArena m := by
  rcases h with ⟨h1, h2⟩ | ⟨h1, h2⟩ <;> simp [LRState.swap, readArena, writeArena, h1, h2]

theorem Set_fields {K V : Type} [DecidableEq K] (m : LRState K V) (k : K) (v : V) :
    (m.Set k v).readMap = m.readMap ∧ (m.Set k v).writeMap = m.writeMap ∧
    (m.Set k v).readHandlers = m.readHandlers ∧
    (m.Set k v).redoLog = m.redoLog ++ [Operation.set k v] := by
  unfold LRState.Set updateWrite
  split <;> simp

theorem Delete_fields {K V : Type} [DecidableEq K] (m : LRState K V) (k : K) :
    (m.Delete k).readMap = m.readMap ∧ (m.Delete k).writeMap = m.writeMap ∧
    (m.Delete k).readHandlers = m.readHandlers ∧
    (m.Delete k).redoLog = m.redoLog ++ [Operation.del k] := by
  unfold LRState.Delete updateWrite
  split <;> simp

theorem readArena_Set {K V : Type} [DecidableEq K] (m : LRState K V) (k : K) (v : V)
    (h : Inv m) : readArena (m.Set k v) = readArena m := by
  rcases h with ⟨h1, h2⟩ | ⟨h1, h2⟩ <;>
    simp [LRState.Set, updateWrite, readArena, h1, h2]

theorem writeArena_Set {K V : Type} [DecidableEq K] (m : LRState K V) (k : K) (v : V)
    (h : Inv m) : writeArena (m.Set k v) = Arena.set (writeArena m) k v := by
  rcases h with ⟨h1, h2⟩ | ⟨h1, h2⟩ <;>
    simp [LRState.Set, updateWrite, writeArena, h1, h2]

theorem readArena_Delete {K V : Type} [DecidableEq K] (m : LRState K V) (k : K)
    (h : Inv m) : readArena (m.Delete k) = readArena m := by
  rcases h with ⟨h1, h2⟩ | ⟨h1, h2⟩ <;>
    simp [LRState.Delete, updateWrite, readArena, h1, h2]

theorem writeArena_Delete {K V : Type} [DecidableEq K] (m : LRState K V) (k : K)
    (h : Inv m) : writeArena (m.Delete k) = Arena.del (writeArena m) k := by
  rcases h with ⟨h1, h2⟩ | ⟨h1, h2⟩ <;>
    simp [LRState.Delete, updateWrite, writeArena, h1, h2]

theorem Commit_core {K V : Type} [DecidableEq K] (m : LRState K V) (h : Inv m) :
    readArena m.Commit = writeArena m ∧
    writeArena m.Commit = applyLog (readArena m) m.redoLog ∧
    m.Commit.redoLog = [] ∧ m.Commit.readHandlers = m.readHandlers ∧
    m.Commit.readMap = m.writeMap ∧ m.Commit.writeMap = m.readMap ∧
    Inv m.Commit := by
  rcases h with ⟨h1, h2⟩ | ⟨h1, h2⟩ <;>
    simp [LRState.Commit, LRState.swap, updateWrite, readArena, writeArena, Inv, h1, h2]

theorem issue_spec {K V : Type} [DecidableEq K] (m : LRState K V) (op : Operation K V)
    (h : Inv m) :
    Inv (issue m op) ∧
    readArena (issue m op) = readArena m ∧
    writeArena (issue m op) = applyOp (writeArena m) op ∧
    (issue m op).redoLog = m.redoLog ++ [op] ∧
    (issue m op).readMap = m.readMap ∧ (issue m op).writeMap = m.writeMap ∧
    (issue m op).readHandlers = m.readHandlers := by
  cases op with
  | set k v =>
    obtain ⟨f1, f2, f3, f4⟩ := Set_fields m k v
    refine ⟨?_, readArena_Set m k v h, writeArena_Set m k v h, f4, f1, f2, f3⟩
    show Inv (m.Set k v)
    rw [Inv, f1, f2]
    exact h
  | del k =>
    obtain ⟨f1, f2, f3, f4⟩ := Delete_fields m k
    refine ⟨?_, readArena_Delete m k h, writeArena_Delete m k h, f4, f1, f2, f3⟩
    show Inv (m.Delete k)
    rw [Inv, f1, f2]
    exact h

theorem applyOps_spec {K V : Type} [DecidableEq K] (ops : List (Operation K V))
    (m : LRState K V) (h : Inv m) :
    Inv (applyOps m ops) ∧
    readArena (applyOps m ops) = readArena m ∧
    writeArena (applyOps m ops) = applyLog (writeArena m) ops ∧
    (applyOps m ops).redoLog = m.redoLog ++ ops ∧
    (applyOps m ops).readMap = m.readMap ∧ (applyOps m ops).writeMap = m.writeMap ∧
    (applyOps m ops).readHandlers = m.readHandlers := by
  induction ops generalizing m with
  | nil => simpa [applyOps, applyLog] using h
  | cons op ops ih =>
    obtain ⟨s1, s2, s3, s4, s5, s6, s7⟩ := issue_spec m op h
    obtain ⟨i1, i2, i3, i4, i5, i6, i7⟩ := ih (issue m op) s1
    have hs : applyOps m (op :: ops) = applyOps (issue m op) ops := rfl
    refine ⟨hs ▸ i1, ?_, ?_, ?_, ?_, ?_, ?_⟩
    · rw [hs, i2, s2]
    · rw [hs, i3, s3]
      rfl
    · rw [hs, i4, s4, List.append_assoc]
      rfl
    · rw [hs, i5, s5]
    · rw [hs, i6, s6]
    · rw [hs, i7, s7]

theorem inv_new {K V : Type} : Inv (LRState.new : LRState K V) :=
  Or.inr ⟨rfl, rfl⟩

theorem sinv_new {K V : Type} [DecidableEq K] : SInv (LRState.new : LRState K V) := rfl

theorem sinv_issue {K V : Type} [DecidableEq K] (m : LRState K V) (op : Operation K V)
    (h : Inv m) (hs : SInv m) : SInv (issue m op) := by
  obtain ⟨s1, s2, s3, s4, s5, s6, s7⟩ := issue_spec m op h
  rw [SInv, s2, s4, s3, applyLog_append, hs]
  rfl

theorem sinv_applyOps {K V : Type} [DecidableEq K] (ops : List (Operation K V))
    (m : LRState K V) (h : Inv m) (hs : SInv m) : SInv (applyOps m ops) := by
  induction ops generalizing m with
  | nil => exact hs
  | cons op ops ih =>
    exact ih (issue m op) (issue_spec m op h).1 (sinv_issue m op h hs)

theorem sinv_commit {K V : Type} [DecidableEq K] (m : LRState K V) (h : Inv m)
    (hs : SInv m) : SInv m.Commit := by
  obtain ⟨c1, c2, c3, _c4, _c5, _c6, _c7⟩ := Commit_core m h
  rw [SInv, c1, c2, c3, hs]
  rfl

theorem mod_two_mod_U64 (e : Nat) : e % U64 % 2 = e % 2 :=
  Nat.mod_mod_of_dvd e (by norm_num [U64])

theorem enter_of_outside {K V : Type} (h : Handler K V) (m : LRState K V)
    (hf : entered h = false) :
    Handler.enter h m = some { live := readArena m, epoch := (h.epoch + 1) % U64 } ∧
    entered ({ live := readArena m, epoch := (h.epoch + 1) % U64 } : Handler K V)
      = true := by
  have he : h.epoch % 2 = 0 := by
    simp [entered] at hf
    omega
  constructor
  · simp [Handler.enter, hf]
  · show ((h.epoch + 1) % U64 % 2 == 1) = true
    rw [mod_two_mod_U64]
    simp
    omega

theorem leave_of_inside {K V : Type} (h : Handler K V) (ht : entered h = true) :
    Handler.leave h = some { h with epoch := (h.epoch + 1) % U64 } ∧
    entered ({ h with epoch := (h.epoch + 1) % U64 } : Handler K V) = false := by
  have he : h.epoch % 2 = 1 := by simpa [entered] using ht
  constructor
  · simp [Handler.leave, ht]
  · show ((h.epoch + 1) % U64 % 2 == 1) = false
    rw [mod_two_mod_U64]
    simp
    omega

/- Helper lemmas about the quiescence polling loop. -/

theorem waitLoop_le (obs : Nat → Nat → Nat) (fuel : Nat) :
    ∀ (round : Nat) (readers : List (Nat × Nat)) (r : Nat),
      waitLoop obs fuel round readers = some r → round ≤ r := by
  induction fuel with
  | zero =>
    intro round readers r h
    simp [waitLoop] at h
  | succ fuel ih =>
    intro round readers r h
    simp only [waitLoop] at h
    split at h
    · simp only [Option.some.injEq] at h
      omega
    · have h2 := ih (round + 1) _ r h
      omega

theorem waitLoop_observed (obs : Nat → Nat → Nat) (fuel : Nat) :
    ∀ (round : Nat) (readers : List (Nat × Nat)) (r : Nat),
      waitLoop obs fuel round readers = some r →
      ∀ p ∈ readers, ∃ r2, round ≤ r2 ∧ r2 ≤ r ∧ obs r2 p.1 ≠ p.2 := by
  induction fuel with
  | zero =>
    intro round readers r h
    simp [waitLoop] at h
  | succ fuel ih =>
    intro round readers r h p hp
    simp only [waitLoop] at h
    split at h
    next he =>
      simp only [Option.some.injEq] at h
      subst h
      rw [List.isEmpty_iff] at he
      refine ⟨round, le_refl _, le_refl _, fun hEq => ?_⟩
      have hmem : p ∈ readers.filter (fun q => obs round q.1 == q.2) :=
        List.mem_filter.mpr ⟨hp, by simp [hEq]⟩
      rw [he] at hmem
      exact (List.not_mem_nil p) hmem
    next he =>
      by_cases hq : obs round p.1 = p.2
      · have hpf : p ∈ readers.filter (fun q => obs round q.1 == q.2) :=
          List.mem_filter.mpr ⟨hp, by simp [hq]⟩
        obtain ⟨r2, hr1, hr2, hr3⟩ := ih (round + 1) _ r h p hpf
        exact ⟨r2, by omega, hr2, hr3⟩
      · have hlow := waitLoop_le obs fuel (round + 1) _ r h
        exact ⟨round, le_refl _, by omega, hq⟩

theorem obs_mono (obs : Nat → Nat → Nat) (hm : ∀ id r, obs r id ≤ obs (r + 1) id)
    (id : Nat) (r1 r2 : Nat) (hle : r1 ≤ r2) : obs r1 id ≤ obs r2 id := by
  induction hle with
  | refl => exact le_refl _
  | step h2 ih => exact le_trans ih (hm id _)

/- Claim theorems. -/

/-- C7: for every reader handle, the epoch is odd exactly while inside a
read section: Enter increments the epoch by 1 making it odd, Leave
increments it by 1 making it even, and the parity correspondence holds
across unsigned 64-bit overflow: at the maximum representable odd value
the increment wraps to 0 (even) and the next increment yields 1 (odd
again). -/
theorem epoch_parity_protocol {K V : Type} (h : Handler K V) (m : LRState K V) :
    (entered h = false → ∃ h2, Handler.enter h m = some h2 ∧ entered h2 = true ∧
      h2.epoch = (h.epoch + 1) % U64) ∧
    (entered h = true → ∃ h2, Handler.leave h = some h2 ∧ entered h2 = false ∧
      h2.epoch = (h.epoch + 1) % U64) ∧
    (h.epoch = U64 - 1 → ∃ h2 h3, Handler.leave h = some h2 ∧ h2.epoch = 0 ∧
      entered h2 = false ∧ Handler.enter h2 m = some h3 ∧ h3.epoch = 1 ∧
      entered h3 = true) := by
  refine ⟨?_, ?_, ?_⟩
  · intro hf
    obtain ⟨he, hp⟩ := enter_of_outside h m hf
    exact ⟨_, he, hp, rfl⟩
  · intro ht
    obtain ⟨he, hp⟩ := leave_of_inside h ht
    exact ⟨_, he, hp, rfl⟩
  · intro hmax
    have ht : entered h = true := by
      show (h.epoch % 2 == 1) = true
      rw [hmax]
      decide
    obtain ⟨he, hp⟩ := leave_of_inside h ht
    have hz : (h.epoch + 1) % U64 = 0 := by
      rw [hmax]
      decide
    rw [hz] at he hp
    obtain ⟨he2, hp2⟩ := enter_of_outside { h with epoch := 0 } m hp
    have hone : (0 + 1) % U64 = 1 := by decide
    rw [hone] at he2 hp2
    exact ⟨{ h with epoch := 0 }, { live := readArena m, epoch := 1 }, he, rfl, hp,
      he2, rfl, hp2⟩

/-- C7 witness: the maximum representable odd epoch wraps to 0 on Leave and
to 1 on the next Enter. -/
theorem epoch_parity_protocol_witness :
    ∃ h2 h3,
      Handler.leave ({ live := [], epoch := U64 - 1 } : Handler Nat Nat) = some h2 ∧
      h2.epoch = 0 ∧ entered h2 = false ∧
      Handler.enter h2 LRState.new = some h3 ∧ h3.epoch = 1 ∧ entered h3 = true :=
  (epoch_parity_protocol { live := [], epoch := U64 - 1 } LRState.new).2.2 rfl

/-- C8: every protocol violation on a reader handle aborts the offending
call rather than being silently tolerated: Enter while already inside a
section fails, Leave while not inside fails, and GetOK, Get, Len and
Iterate while not inside fail. -/
theorem protocol_violation_aborts {K V : Type} [DecidableEq K] [Inhabited V]
    (h : Handler K V) (m : LRState K V) (k : K) (fn : K → V → Bool) :
    (entered h = true → Handler.enter h m = none) ∧
    (entered h = false →
      Handler.leave h = none ∧ Handler.getOK h k = none ∧ Handler.get h k = none ∧
      Handler.len h = none ∧ Handler.iterate h fn = none) := by
  constructor
  · intro ht
    simp [Handler.enter, ht]
  · intro hf
    exact ⟨by simp [Handler.leave, hf], by simp [Handler.getOK, hf],
      by simp [Handler.get, Handler.getOK, hf], by simp [Handler.len, hf],
      by simp [Handler.iterate, hf]⟩

/-- C8 witness: an inside handle cannot Enter again, and an outside handle
can neither Leave nor read. -/
theorem protocol_violation_aborts_witness :
    Handler.enter ({ live := [], epoch := 1 } : Handler Nat Nat) LRState.new = none ∧
    (Handler.leave ({ live := [], epoch := 0 } : Handler Nat Nat) = none ∧
      Handler.getOK ({ live := [], epoch := 0 } : Handler Nat Nat) 5 = none ∧
      Handler.get ({ live := [], epoch := 0 } : Handler Nat Nat) 5 = none ∧
      Handler.len ({ live := [], epoch := 0 } : Handler Nat Nat) = none ∧
      Handler.iterate ({ live := [], epoch := 0 } : Handler Nat Nat)
        (fun _ _ => true) = none) :=
  ⟨(protocol_violation_aborts { live := [], epoch := 1 } LRState.new 5
      (fun _ _ => true)).1 rfl,
    (protocol_violation_aborts { live := [], epoch := 0 } LRState.new 5
      (fun _ _ => true)).2 rfl⟩

/-- C10: for an absent key, Coordinator Get and reader-handle Get (inside a
section) return the zero value of the value type with the found flag
discarded; only the GetOK variants report absence, and a stored zero value
is indistinguishable from an absent key through Get. -/
theorem get_discards_found_flag {K V : Type} [DecidableEq K] [Inhabited V]
    (m m2 : LRState K V) (h : Handler K V) (k : K)
    (habs : Arena.lookup (writeArena m) k = none)
    (hent : entered h = true)
    (habs2 : Arena.lookup h.live k = none)
    (hzero : Arena.lookup (writeArena m2) k = some default) :
    m.Get k = default ∧ m.GetOK k = (default, false) ∧
    Handler.get h k = some default ∧ Handler.getOK h k = some (default, false) ∧
    m2.GetOK k = (default, true) ∧ m2.Get k = m.Get k := by
  have h1 : m.GetOK k = (default, false) := by
    simp [LRState.GetOK, Arena.getOK, habs]
  have h2 : m2.GetOK k = (default, true) := by
    simp [LRState.GetOK, Arena.getOK, hzero]
  have h3 : Handler.getOK h k = some (default, false) := by
    simp [Handler.getOK, hent, Arena.getOK, habs2]
  refine ⟨?_, h1, ?_, h3, h2, ?_⟩
  · show (m.GetOK k).1 = default
    rw [h1]
  · simp [Handler.get, h3]
  · show (m2.GetOK k).1 = (m.GetOK k).1
    rw [h1, h2]

/-- C10 witness: key 5 is absent from the write arena of a fresh map and
from a live snapshot, while a second map stores the zero value 0 at key 5;
Get returns 0 in both situations. -/
theorem get_discards_found_flag_witness :
    LRState.Get (LRState.new : LRState Nat Nat) 5 = default ∧
    LRState.GetOK (LRState.new : LRState Nat Nat) 5 = (default, false) ∧
    Handler.get ({ live := [], epoch := 1 } : Handler Nat Nat) 5 = some default ∧
    Handler.getOK ({ live := [], epoch := 1 } : Handler Nat Nat) 5
      = some (default, false) ∧
    LRState.GetOK { LRState.new with left := [(5, 0)] } 5 = (default, true) ∧
    LRState.Get ({ LRState.new with left := [(5, 0)] } : LRState Nat Nat) 5
      = LRState.Get (LRState.new : LRState Nat Nat) 5 :=
  get_discards_found_flag LRState.new { LRState.new with left := [(5, 0)] }
    { live := [], epoch := 1 } 5 rfl rfl rfl rfl

/-- C6: Set and Delete modify only the write-side arena and the log: the
read-side arena, the readMap pointer and the handler registry are
unchanged, a handle Entering sees the same snapshot before and after the
call (no effect observable to readers until the next flush), and Delete of
an absent key is a no-op on the arena rather than an error. -/
theorem write_ops_frame {K V : Type} [DecidableEq K] (m : LRState K V) (k : K) (v : V)
    (h : Handler K V) (hInv : Inv m) :
    readArena (m.Set k v) = readArena m ∧ (m.Set k v).readMap = m.readMap ∧
    (m.Set k v).readHandlers = m.readHandlers ∧
    readArena (m.Delete k) = readArena m ∧ (m.Delete k).readMap = m.readMap ∧
    (m.Delete k).readHandlers = m.readHandlers ∧
    writeArena (m.Set k v) = Arena.set (writeArena m) k v ∧
    writeArena (m.Delete k) = Arena.del (writeArena m) k ∧
    (Arena.lookup (writeArena m) k = none → writeArena (m.Delete k) = writeArena m) ∧
    Handler.enter h (m.Set k v) = Handler.enter h m ∧
    Handler.enter h (m.Delete k) = Handler.enter h m := by
  obtain ⟨f1, f2, f3, f4⟩ := Set_fields m k v
  obtain ⟨g1, g2, g3, g4⟩ := Delete_fields m k
  refine ⟨readArena_Set m k v hInv, f1, f3, readArena_Delete m k hInv, g1, g3,
    writeArena_Set m k v hInv, writeArena_Delete m k hInv, ?_, ?_, ?_⟩
  · intro habs
    rw [writeArena_Delete m k hInv]
    exact del_of_lookup_none _ _ habs
  · simp [Handler.enter, readArena_Set m k v hInv]
  · simp [Handler.enter, readArena_Delete m k hInv]

/-- C6 witness: on a fresh map holding key 1 in its write arena, the
invariant holds and a handle Entering after Set(7, 9) receives the same
snapshot as one Entering before it. -/
theorem write_ops_frame_witness :
    Inv ({ LRState.new with left := [(1, 4)] } : LRState Nat Nat) ∧
    readArena (LRState.Set { LRState.new with left := [(1, 4)] } 7 9)
      = readArena ({ LRState.new with left := [(1, 4)] } : LRState Nat Nat) ∧
    Handler.enter { live := [], epoch := 0 }
        (LRState.Set { LRState.new with left := [(1, 4)] } 7 9)
      = Handler.enter { live := [], epoch := 0 }
          ({ LRState.new with left := [(1, 4)] } : LRState Nat Nat) :=
  ⟨by decide,
    (write_ops_frame { LRState.new with left := [(1, 4)] } 7 9
      { live := [], epoch := 0 } (by decide)).1,
    (write_ops_frame { LRState.new with left := [(1, 4)] } 7 9
      { live := [], epoch := 0 } (by decide)).2.2.2.2.2.2.2.2.2.1⟩

/-- C4: after construction the readMap and writeMap designators each refer
to exactly one of the two arenas and are never equal; every swap exchanges
the two assignments; and the invariant holds for New and is preserved by
Set, Delete, Commit, swap, handler registration and handler close. -/
theorem designator_invariant {K V : Type} [DecidableEq K] (m : LRState K V) (k : K)
    (v : V) (id : Nat) (hInv : Inv m) :
    Inv (LRState.new : LRState K V) ∧
    (m.readMap = some Side.left ∨ m.readMap = some Side.right) ∧
    (m.writeMap = some Side.left ∨ m.writeMap = some Side.right) ∧
    m.readMap ≠ m.writeMap ∧
    m.swap.readMap = m.writeMap ∧ m.swap.writeMap = m.readMap ∧
    Inv (m.Set k v) ∧ Inv (m.Delete k) ∧ Inv m.Commit ∧ Inv m.swap ∧
    Inv (m.newReadHandler id) ∧ Inv (m.closeHandler id) := by
  obtain ⟨f1, f2, f3, f4⟩ := Set_fields m k v
  obtain ⟨g1, g2, g3, g4⟩ := Delete_fields m k
  obtain ⟨w1, w2⟩ := swap_flip m hInv
  refine ⟨inv_new, ?_, ?_, ?_, w1, w2, ?_, ?_, (Commit_core m hInv).2.2.2.2.2.2,
    swap_inv m, ?_, ?_⟩
  · rcases hInv with ⟨h1, h2⟩ | ⟨h1, h2⟩ <;> simp [h1]
  · rcases hInv with ⟨h1, h2⟩ | ⟨h1, h2⟩ <;> simp [h2]
  · rcases hInv with ⟨h1, h2⟩ | ⟨h1, h2⟩ <;> simp [h1, h2]
  · rw [Inv, f1, f2]
    exact hInv
  · rw [Inv, g1, g2]
    exact hInv
  · simpa [LRState.newReadHandler, Inv] using hInv
  · simpa [LRState.closeHandler, Inv] using hInv

/-- C4 witness: the invariant holds for a fresh map and is preserved
through Set, Delete and Commit; swap exchanges the two designators. -/
theorem designator_invariant_witness :
    Inv (LRState.new : LRState Nat Nat) ∧
    (LRState.new : LRState Nat Nat).readMap ≠ (LRState.new : LRState Nat Nat).writeMap ∧
    (LRState.new : LRState Nat Nat).swap.readMap
      = (LRState.new : LRState Nat Nat).writeMap ∧
    Inv (LRState.Set (LRState.new : LRState Nat Nat) 1 2) ∧
    Inv (LRState.new : LRState Nat Nat).Commit :=
  ⟨by decide,
    (designator_invariant (LRState.new : LRState Nat Nat) 1 2 0 (by decide)).2.2.2.1,
    (designator_invariant (LRState.new : LRState Nat Nat) 1 2 0 (by decide)).2.2.2.2.1,
    (designator_invariant (LRState.new : LRState Nat Nat) 1 2 0
      (by decide)).2.2.2.2.2.2.1,
    (designator_invariant (LRState.new : LRState Nat Nat) 1 2 0
      (by decide)).2.2.2.2.2.2.2.2.1⟩

/-- C5: Commit replays every entry of the redo log in recorded order onto
the arena that just became the write target (applying Set and Delete as
issued) and clears the log; on completion the two arenas have identical
contents and the pending log is empty. -/
theorem commit_replay_parity {K V : Type} [DecidableEq K] (m : LRState K V)
    (hInv : Inv m) (hS : SInv m) :
    writeArena m.Commit = applyLog (readArena m) m.redoLog ∧
    m.Commit.left = m.Commit.right ∧
    m.Commit.redoLog = [] := by
  obtain ⟨c1, c2, c3, _c4, _c5, _c6, c7⟩ := Commit_core m hInv
  refine ⟨c2, ?_, c3⟩
  have hq : readArena m.Commit = writeArena m.Commit := by
    rw [c1, c2, hS]
  rcases c7 with ⟨d1, d2⟩ | ⟨d1, d2⟩
  · simp [readArena, writeArena, d1, d2] at hq
    exact hq
  · simp [readArena, writeArena, d1, d2] at hq
    exact hq.symm

/-- C5 witness: after Set(1, 2), Set(1, 3), Delete(4) on a fresh map,
Commit replays the three-entry log onto the vacated arena, leaves both
arenas equal and empties the log. -/
theorem commit_replay_parity_witness :
    writeArena (LRState.Commit
        (LRState.Delete (LRState.Set (LRState.Set (LRState.new : LRState Nat Nat)
          1 2) 1 3) 4))
      = applyLog
          (readArena (LRState.Delete (LRState.Set (LRState.Set
            (LRState.new : LRState Nat Nat) 1 2) 1 3) 4))
          (LRState.Delete (LRState.Set (LRState.Set (LRState.new : LRState Nat Nat)
            1 2) 1 3) 4).redoLog ∧
    (LRState.Commit (LRState.Delete (LRState.Set (LRState.Set
        (LRState.new : LRState Nat Nat) 1 2) 1 3) 4)).left
      = (LRState.Commit (LRState.Delete (LRState.Set (LRState.Set
          (LRState.new : LRState Nat Nat) 1 2) 1 3) 4)).right ∧
    (LRState.Commit (LRState.Delete (LRState.Set (LRState.Set
        (LRState.new : LRState Nat Nat) 1 2) 1 3) 4)).redoLog = [] :=
  commit_replay_parity
    (LRState.Delete (LRState.Set (LRState.Set (LRState.new : LRState Nat Nat) 1 2)
      1 3) 4)
    (by decide) (by decide)

/-- C2: Set(k, v), Flush, fresh Enter yields GetOK(k) = (v, true); and
Delete(k), Flush, fresh Enter yields GetOK(k) = (zero value, false). -/
theorem roundtrip_set_delete {K V : Type} [DecidableEq K] [Inhabited V]
    (m : LRState K V) (k : K) (v : V) (h : Handler K V)
    (hInv : Inv m) (hout : entered h = false) :
    (∃ h2, Handler.enter h ((m.Set k v).Commit) = some h2 ∧
      Handler.getOK h2 k = some (v, true)) ∧
    (∃ h2, Handler.enter h ((m.Delete k).Commit) = some h2 ∧
      Handler.getOK h2 k = some (default, false)) := by
  have hsetInv : Inv (m.Set k v) := (issue_spec m (Operation.set k v) hInv).1
  have hdelInv : Inv (m.Delete k) := (issue_spec m (Operation.del k) hInv).1
  constructor
  · obtain ⟨he, hp⟩ := enter_of_outside h ((m.Set k v).Commit) hout
    refine ⟨_, he, ?_⟩
    rw [Handler.getOK]
    rw [if_pos hp]
    have hread : readArena ((m.Set k v).Commit) = Arena.set (writeArena m) k v := by
      rw [(Commit_core (m.Set k v) hsetInv).1, writeArena_Set m k v hInv]
    rw [hread, Arena.getOK, lookup_set]
    simp
  · obtain ⟨he, hp⟩ := enter_of_outside h ((m.Delete k).Commit) hout
    refine ⟨_, he, ?_⟩
    rw [Handler.getOK]
    rw [if_pos hp]
    have hread : readArena ((m.Delete k).Commit) = Arena.del (writeArena m) k := by
      rw [(Commit_core (m.Delete k) hdelInv).1, writeArena_Delete m k hInv]
    rw [hread, Arena.getOK, lookup_del]
    simp

/-- C2 witness: on a fresh map, Set(1, 9), Flush, Enter reads (9, true) at
key 1, and Delete(1), Flush, Enter reads (0, false) at key 1. -/
theorem roundtrip_set_delete_witness :
    (∃ h2, Handler.enter ({ live := [], epoch := 0 } : Handler Nat Nat)
        ((LRState.Set (LRState.new : LRState Nat Nat) 1 9).Commit) = some h2 ∧
      Handler.getOK h2 1 = some (9, true)) ∧
    (∃ h2, Handler.enter ({ live := [], epoch := 0 } : Handler Nat Nat)
        ((LRState.Delete (LRState.new : LRState Nat Nat) 1).Commit) = some h2 ∧
      Handler.getOK h2 1 = some (default, false)) :=
  roundtrip_set_delete (LRState.new : LRState Nat Nat) 1 9
    { live := [], epoch := 0 } (by decide) rfl

/-- C9 counterexample: a handle whose epoch is odd (currently inside a read
section) is removed from the registry by close without any error: the
inner close of src/lrmap.go deletes the handler from the registry with no
section-state check, so the claim that release fails on an inside handle
and that only outside handles are removed is false. -/
theorem close_inside_section_counterexample :
    entered ({ live := [], epoch := 1 } : Handler Nat Nat) = true ∧
    (LRState.closeHandler
        ({ left := [], right := [], readMap := some Side.right,
           writeMap := some Side.left, redoLog := [],
           readHandlers := [(0, { live := [], epoch := 1 })] } : LRState Nat Nat)
        0).readHandlers = [] := by
  constructor
  · rfl
  · rfl

/-- C9 amended: releasing a reader handle performs no inside-section check:
close removes the handle from the registry even while its epoch is odd
(inside a read section) and reports no error; the leave-before check
exists only in Recycle, which fails on a handle still inside a section. -/
theorem close_unchecked_recycle_checked {K V : Type} (m : LRState K V) (id : Nat)
    (g h : Handler K V) (hin : entered h = true) :
    ((id, g) ∈ (m.closeHandler id).readHandlers → False) ∧
    Handler.recycle h true = none := by
  constructor
  · intro hmem
    obtain ⟨-, hpred⟩ := List.mem_filter.mp hmem
    simp at hpred
  · simp [Handler.recycle, hin]

/-- C9 witness: after close, the entered handle 0 is gone from the
registry, and Recycle on an entered handle fails. -/
theorem close_unchecked_recycle_checked_witness :
    (((0, { live := [], epoch := 1 }) : Nat × Handler Nat Nat) ∈
        (LRState.closeHandler
          ({ left := [], right := [], readMap := some Side.right,
             writeMap := some Side.left, redoLog := [],
             readHandlers := [(0, { live := [], epoch := 1 })] } : LRState Nat Nat)
          0).readHandlers → False) ∧
    Handler.recycle ({ live := [], epoch := 1 } : Handler Nat Nat) true = none :=
  close_unchecked_recycle_checked
    ({ left := [], right := [], readMap := some Side.right,
       writeMap := some Side.left, redoLog := [],
       readHandlers := [(0, { live := [], epoch := 1 })] } : LRState Nat Nat)
    0 { live := [], epoch := 1 } { live := [], epoch := 1 } rfl

/-- C1: for every sequence of Set and Delete operations issued between two
Flush calls, after the second Flush a fresh Enter observes in its snapshot
exactly the net effect of those operations applied in issue order,
last-writer-wins per key, and the replayed write-side arena coincides with
the snapshot (replaying the log onto the vacated arena equals applying the
operations to the map directly). -/
theorem flush_flush_net_effect {K V : Type} [DecidableEq K] (m : LRState K V)
    (ops : List (Operation K V)) (h h2 : Handler K V) (k : K)
    (hInv : Inv m) (hS : SInv m) (hout : entered h = false)
    (henter : Handler.enter h ((applyOps m.Commit ops).Commit) = some h2) :
    h2.live = applyLog (readArena m.Commit) ops ∧
    writeArena ((applyOps m.Commit ops).Commit) = h2.live ∧
    Arena.lookup h2.live k = netLookup ops (Arena.lookup (readArena m.Commit) k) k := by
  obtain ⟨c1, c2, c3, _c4, _c5, _c6, c7⟩ := Commit_core m hInv
  obtain ⟨a1, a2, a3, a4, _a5, _a6, _a7⟩ := applyOps_spec ops m.Commit c7
  obtain ⟨d1, d2, _d3, _d4, _d5, _d6, _d7⟩ := Commit_core (applyOps m.Commit ops) a1
  -- the write arena after the first Commit equals its read arena
  have hw0 : writeArena m.Commit = readArena m.Commit := by
    rw [c1, c2, hS]
  -- the snapshot handed to the fresh Enter
  rw [(enter_of_outside h ((applyOps m.Commit ops).Commit) hout).1] at henter
  have h2eq : h2.live = readArena ((applyOps m.Commit ops).Commit) := by
    injection henter with hh
    rw [← hh]
  have hlive : h2.live = applyLog (readArena m.Commit) ops := by
    rw [h2eq, d1, a3, hw0]
  refine ⟨hlive, ?_, ?_⟩
  · rw [d2, a2, a4, c3, hlive]
    rfl
  · rw [hlive, lookup_applyLog]

/-- C1 witness: starting from a flushed fresh map, the sequence Set(1, 10),
Set(1, 20), Delete(3) followed by a second Flush and a fresh Enter yields
the snapshot [(1, 20)], which at key 1 is the last-writer-wins value 20. -/
theorem flush_flush_net_effect_witness :
    ({ live := [(1, 20)], epoch := 1 } : Handler Nat Nat).live
      = applyLog (readArena (LRState.new : LRState Nat Nat).Commit)
          [Operation.set 1 10, Operation.set 1 20, Operation.del 3] ∧
    writeArena ((applyOps (LRState.new : LRState Nat Nat).Commit
        [Operation.set 1 10, Operation.set 1 20, Operation.del 3]).Commit)
      = ({ live := [(1, 20)], epoch := 1 } : Handler Nat Nat).live ∧
    Arena.lookup ({ live := [(1, 20)], epoch := 1 } : Handler Nat Nat).live 1
      = netLookup [Operation.set 1 10, Operation.set 1 20, Operation.del 3]
          (Arena.lookup (readArena (LRState.new : LRState Nat Nat).Commit) 1) 1 :=
  flush_flush_net_effect (LRState.new : LRState Nat Nat)
    [Operation.set 1 10, Operation.set 1 20, Operation.del 3]
    { live := [], epoch := 0 } { live := [(1, 20)], epoch := 1 } 1
    (by decide) (by decide) rfl (by decide)

/-- C3: when the quiescence wait of Flush/Commit returns, every handle
registered at swap time whose epoch was odd when snapshotted has (with
monotonically nondecreasing epoch observations, i.e. absent 64-bit
wraparound during the wait) an epoch differing from its snapshotted value
at the return round; handles whose epoch was even at snapshot time are
never placed in the pending set; and the replay onto the vacated arena is
performed only once the wait has returned. -/
theorem commit_wait_quiescence {K V : Type} [DecidableEq K] (m : LRState K V)
    (obs : Nat → Nat → Nat) (fuel : Nat) (m2 : LRState K V) (p : Nat × Nat)
    (hmono : ∀ id r, obs r id ≤ obs (r + 1) id)
    (hsnap : ∀ q ∈ snapEpochs m.swap, q.2 % 2 = 1 → q.2 ≤ obs 0 q.1)
    (hrun : CommitWithWait m obs fuel = some m2)
    (hp : p ∈ snapEpochs m.swap) :
    ∃ r, waitForReaders obs fuel (snapEpochs m.swap) = some r ∧
      (p.2 % 2 = 1 → obs r p.1 ≠ p.2) ∧
      (p.2 % 2 = 0 → p ∉ collectReaders (snapEpochs m.swap)) ∧
      m2 = { updateWrite m.swap (fun a => applyLog a m.swap.redoLog) with redoLog := [] } := by
  rcases hw : waitForReaders obs fuel (snapEpochs m.swap) with _ | r
  · simp [CommitWithWait, hw] at hrun
  · simp only [CommitWithWait, hw, Option.some.injEq] at hrun
    refine ⟨r, rfl, ?_, ?_, hrun.symm⟩
    · intro hodd
      have hmem : p ∈ collectReaders (snapEpochs m.swap) :=
        List.mem_filter.mpr ⟨hp, by simp [hodd]⟩
      obtain ⟨r2, _h0, hr2, hne⟩ :=
        waitLoop_observed obs fuel 0 (collectReaders (snapEpochs m.swap)) r hw p hmem
      have hle1 : p.2 ≤ obs 0 p.1 := hsnap p hp hodd
      have hle2 : obs 0 p.1 ≤ obs r2 p.1 := obs_mono obs hmono p.1 0 r2 (Nat.zero_le _)
      have hle3 : obs r2 p.1 ≤ obs r p.1 := obs_mono obs hmono p.1 r2 r hr2
      omega
    · intro heven hmem
      obtain ⟨-, hpred⟩ := List.mem_filter.mp hmem
      simp at hpred
      omega

/-- C3 witness: with handler 0 inside (snapshot epoch 1) and handler 1
outside (epoch 4), and epochs observed as round + 1, the wait returns at
round 1, where handler 0's observed epoch 2 differs from its snapshot. -/
theorem commit_wait_quiescence_witness :
    ∃ r, waitForReaders exObs 3 (snapEpochs exState.swap) = some r ∧
      (((0, 1) : Nat × Nat).2 % 2 = 1 → exObs r ((0, 1) : Nat × Nat).1 ≠ 1) ∧
      (((0, 1) : Nat × Nat).2 % 2 = 0 →
        ((0, 1) : Nat × Nat) ∉ collectReaders (snapEpochs exState.swap)) ∧
      exCommitResult = { updateWrite exState.swap (fun a => applyLog a exState.swap.redoLog) with redoLog := [] } :=
  commit_wait_quiescence exState exObs 3 exCommitResult (0, 1)
    (fun _ r => Nat.le_succ (r + 1)) (by decide) (by decide) (by decide)

end LRMapModel
